import Mathlib

/-!
Verification of the autoflight orchestration layer (shallow embedding).

The Python modules `stitcher.py`, `security.py`, `output.py`, `server.py`,
`image_loader.py` and `orthomosaic.py` are embedded as executable Lean
functions.  External collaborators (the OpenCV stitching engine, `cv2.imread`
/ `imencode` / `imwrite`, the filesystem and the wall clock) are modelled as
explicit parameters, following the design document that treats them as
black-box collaborators.  Machine floats used for progress fractions are
modelled as rationals (the fractions occurring are 0, k/(2n), 1/2, 3/5,
19/20 and 1, all exact).
-/

namespace Autoflight

/-- Error taxonomy from `exceptions.py`: every constructor is one subclass of
`AutoflightError`. -/
inductive AFError where
  | validationError (msg : String)
  | securityError (msg : String)
  | imageLoadError (msg : String)
  | stitchingError (msg : String)
  | outputError (msg : String)
deriving Repr, DecidableEq

/-- An in-memory raster buffer (`np.ndarray`): pixel dimensions plus the flat
byte buffer.  `data = []` models an empty array (`image.size == 0`). -/
structure Image where
  width : Nat
  height : Nat
  data : List Nat
deriving Repr, DecidableEq

/-- Status codes returned by `cv2.Stitcher.stitch`. -/
inductive EngineStatus where
  | ok
  | errNeedMoreImgs
  | errHomographyEstFail
  | errCameraParamsAdjustFail
  | other (code : Int)
deriving Repr, DecidableEq

/-- The two profiles accepted by `cv2.Stitcher_create`. -/
inductive StitcherMode where
  | panorama
  | scans
deriving Repr, DecidableEq

/-- The external stitching engine: given a profile and the ordered image
list, returns a status and an optional composed image. -/
def Engine : Type := StitcherMode → List Image → EngineStatus × Option Image

/-- Error message table from `stitcher.py` (the `error_messages` dict plus
its `.get` default). -/
def engineStatusMessage : EngineStatus → String
  | .errNeedMoreImgs => "Need more images with sufficient overlap"
  | .errHomographyEstFail =>
      "Homography estimation failed - images may not overlap sufficiently"
  | .errCameraParamsAdjustFail => "Camera parameter adjustment failed"
  | .other code => "Unknown error (status " ++ toString code ++ ")"
  | .ok => "Unknown error (status OK)"

/-- Outcome of one `stitch_images` call: the returned image or raised error,
the (fraction, message) pairs passed to the progress callback in order, and
how many times the engine was invoked. -/
structure StitchOutcome where
  result : Except AFError Image
  events : List (ℚ × String)
  engineCalls : Nat
deriving Repr

/-- The engine-invocation tail of `stitch_images`: the 0.6 progress event,
the single blocking engine call, status interpretation, the none-output
check and the 0.95 progress event. -/
def runEngineStage (engine : Engine) (sm : StitcherMode) (images : List Image)
    (ev0 : List (ℚ × String)) : StitchOutcome :=
  let ev1 := ev0 ++ [((3/5 : ℚ), "Feature detection and matching...")]
  match engine sm images with
  | (.ok, none) =>
      ⟨.error (.stitchingError "Stitching produced no output"), ev1, 1⟩
  | (.ok, some out) =>
      ⟨.ok out, ev1 ++ [((19/20 : ℚ), "Stitching complete")], 1⟩
  | (status, _) =>
      ⟨.error (.stitchingError
          ("Stitching failed: " ++ engineStatusMessage status)), ev1, 1⟩

/-- Embedding of `stitch_images` from `stitcher.py`, in source order:
empty check, single-image shortcut, 0.5 progress, mode selection, then the
engine stage. -/
def stitch_images (engine : Engine) (images : List Image) (mode : String) :
    StitchOutcome :=
  match images with
  | [] => ⟨.error (.validationError "No images provided for stitching"), [], 0⟩
  | [img] => ⟨.ok img, [((1 : ℚ), "Single image - no stitching needed")], 0⟩
  | _ =>
    let ev0 : List (ℚ × String) :=
      [((1/2 : ℚ), "Stitching " ++ toString images.length ++ " images...")]
    if mode = "panorama" then runEngineStage engine .panorama images ev0
    else if mode = "scans" then runEngineStage engine .scans images ev0
    else ⟨.error (.validationError
        ("Invalid stitching mode: " ++ mode ++ ". Use panorama or scans")),
      ev0, 0⟩

/-- A concrete engine used for closed counterexamples and witnesses: always
reports success and returns a fixed 1x1 output image. -/
def constEngine : Engine := fun _ _ => (.ok, some ⟨1, 1, [9, 9, 9]⟩)

/-- A concrete 2x1 test image. -/
def imgA : Image := ⟨2, 1, [10, 20, 30, 40, 50, 60]⟩

/-- A second concrete 2x1 test image. -/
def imgB : Image := ⟨2, 1, [1, 2, 3, 4, 5, 6]⟩

end Autoflight

namespace Autoflight

/-- C5: a single-element image list is returned unchanged with zero engine
calls and the single immediate 1.0 progress event. -/
theorem stitch_single_image_identity (engine : Engine) (img : Image)
    (mode : String) :
    stitch_images engine [img] mode =
      ⟨.ok img, [((1 : ℚ), "Single image - no stitching needed")], 0⟩ := by
  rfl

/-- C4 counterexample: a single-element list with the unrecognized mode
"bogus" does not fail with ValidationError; the single-image shortcut runs
before mode validation, so the image is returned and no error is raised. -/
theorem stitch_invalid_mode_single_image_no_error :
    (stitch_images constEngine [imgA] "bogus").result = .ok imgA ∧
      (stitch_images constEngine [imgA] "bogus").engineCalls = 0 := by
  constructor <;> rfl

/-- C4 (amended): for lists of two or more images, an unrecognized mode
fails with ValidationError and the engine is never invoked. -/
theorem stitch_invalid_mode_validation_error (engine : Engine)
    (images : List Image) (mode : String) (h2 : 2 ≤ images.length)
    (hp : mode ≠ "panorama") (hs : mode ≠ "scans") :
    (stitch_images engine images mode).result =
      .error (.validationError
        ("Invalid stitching mode: " ++ mode ++ ". Use panorama or scans")) ∧
      (stitch_images engine images mode).engineCalls = 0 := by
  match images with
  | [] => simp at h2
  | [img] => simp at h2
  | a :: b :: rest =>
      simp only [stitch_images]
      rw [if_neg hp, if_neg hs]
      exact ⟨rfl, rfl⟩

/-- C4 witness: the amended theorem applied to a concrete two-image list and
the concrete mode "bogus". -/
theorem stitch_invalid_mode_validation_error_witness :
    (stitch_images constEngine [imgA, imgB] "bogus").result =
      .error (.validationError
        ("Invalid stitching mode: bogus. Use panorama or scans")) ∧
      (stitch_images constEngine [imgA, imgB] "bogus").engineCalls = 0 :=
  stitch_invalid_mode_validation_error constEngine [imgA, imgB] "bogus"
    (by decide) (by decide) (by decide)

/-- C3 counterexample: with two images, a valid mode and a successful engine
run, `stitch_images` invokes the progress callback three times (fractions
0.5 and 0.6 before the engine call and 0.95 after), not exactly twice. -/
theorem stitch_emits_three_markers :
    (stitch_images constEngine [imgA, imgB] "panorama").events.length = 3 ∧
      (stitch_images constEngine [imgA, imgB] "panorama").events.map Prod.fst =
        [(1/2 : ℚ), 3/5, 19/20] := by
  constructor <;> rfl

/-- C3 (amended): for two or more images with a valid mode and a successful
engine call, the orchestrator emits exactly three markers: a 0.5 starting
event and a 0.6 feature-detection event before the single engine invocation
and a 0.95 completion event after it, with no events during the call. -/
theorem stitch_markers_around_engine (engine : Engine) (images : List Image)
    (sm : StitcherMode) (mode : String) (out : Image)
    (h2 : 2 ≤ images.length)
    (hmode : (mode = "panorama" ∧ sm = .panorama) ∨
             (mode = "scans" ∧ sm = .scans))
    (heng : engine sm images = (.ok, some out)) :
    (stitch_images engine images mode).events =
      [((1/2 : ℚ), "Stitching " ++ toString images.length ++ " images..."),
       ((3/5 : ℚ), "Feature detection and matching..."),
       ((19/20 : ℚ), "Stitching complete")] ∧
      (stitch_images engine images mode).engineCalls = 1 ∧
      (stitch_images engine images mode).result = .ok out := by
  match images, h2 with
  | a :: b :: rest, _ =>
    rcases hmode with ⟨hm, hsm⟩ | ⟨hm, hsm⟩ <;> subst hm <;> subst hsm <;>
      simp [stitch_images, runEngineStage, heng]

/-- C3 (amended) witness: the three-marker theorem at a concrete two-image
list with mode "panorama" and the constant success engine. -/
theorem stitch_markers_around_engine_witness :
    (stitch_images constEngine [imgA, imgB] "panorama").events =
      [((1/2 : ℚ), "Stitching 2 images..."),
       ((3/5 : ℚ), "Feature detection and matching..."),
       ((19/20 : ℚ), "Stitching complete")] ∧
      (stitch_images constEngine [imgA, imgB] "panorama").engineCalls = 1 ∧
      (stitch_images constEngine [imgA, imgB] "panorama").result =
        .ok ⟨1, 1, [9, 9, 9]⟩ :=
  stitch_markers_around_engine constEngine [imgA, imgB] .panorama "panorama"
    ⟨1, 1, [9, 9, 9]⟩ (by decide) (Or.inl ⟨rfl, rfl⟩) rfl

/-- Configurable limits from `security.py` (`SecurityLimits`). -/
structure SecurityLimits where
  max_file_size : Nat
  max_image_pixels : Nat
  max_files : Nat
deriving Repr, DecidableEq

/-- The module-level defaults (500 MB, 100 megapixels, 1000 files). -/
def get_default_limits : SecurityLimits := ⟨500000000, 100000000, 1000⟩

/-- Embedding of `validate_file_size`.  The external `path.stat().st_size`
call is modelled by the `stat` argument: `none` models an `OSError`. -/
def validate_file_size (path : String) (stat : Option Nat)
    (max_size : Option Nat) (limits : Option SecurityLimits) :
    Except AFError Unit :=
  let l := limits.getD get_default_limits
  let effective_max := max_size.getD l.max_file_size
  match stat with
  | none => .error (.validationError ("Cannot access file: " ++ path))
  | some file_size =>
      if file_size > effective_max then
        .error (.securityError
          ("File size (" ++ toString file_size ++ " bytes) exceeds limit (" ++
            toString effective_max ++ " bytes): " ++ path))
      else .ok ()

/-- Embedding of `validate_image_dimensions`. -/
def validate_image_dimensions (width height : Nat) (max_pixels : Option Nat)
    (limits : Option SecurityLimits) : Except AFError Unit :=
  let l := limits.getD get_default_limits
  let effective_max := max_pixels.getD l.max_image_pixels
  if width * height > effective_max then
    .error (.securityError
      ("Image dimensions (" ++ toString width ++ "x" ++ toString height ++
        " pixels) exceed limit (" ++ toString effective_max ++ " pixels)"))
  else .ok ()

/-- Embedding of `validate_file_count`. -/
def validate_file_count (count : Nat) (max_files : Option Nat)
    (limits : Option SecurityLimits) : Except AFError Unit :=
  let l := limits.getD get_default_limits
  let effective_max := max_files.getD l.max_files
  if count > effective_max then
    .error (.securityError
      ("File count (" ++ toString count ++ ") exceeds limit (" ++
        toString effective_max ++ ")"))
  else .ok ()

/-- C7: both limits are inclusive: a file whose size equals
`max_file_size` passes while `max_file_size + 1` fails with SecurityError,
and a count equal to `max_files` passes while `max_files + 1` fails with
SecurityError. -/
theorem limits_inclusive_boundaries (path : String) (L : SecurityLimits) :
    validate_file_size path (some L.max_file_size) none (some L) = .ok () ∧
    (∃ m, validate_file_size path (some (L.max_file_size + 1)) none (some L) =
        .error (.securityError m)) ∧
    validate_file_count L.max_files none (some L) = .ok () ∧
    (∃ m, validate_file_count (L.max_files + 1) none (some L) =
        .error (.securityError m)) := by
  refine ⟨?_, ?_, ?_, ?_⟩
  · simp [validate_file_size]
  · have h1 : validate_file_size path (some (L.max_file_size + 1)) none
        (some L) = .error (.securityError
          ("File size (" ++ toString (L.max_file_size + 1) ++
            " bytes) exceeds limit (" ++ toString L.max_file_size ++
            " bytes): " ++ path)) := by
      simp [validate_file_size]
    exact ⟨_, h1⟩
  · simp [validate_file_count]
  · have h2 : validate_file_count (L.max_files + 1) none (some L) =
        .error (.securityError
          ("File count (" ++ toString (L.max_files + 1) ++
            ") exceeds limit (" ++ toString L.max_files ++ ")")) := by
      simp [validate_file_count]
    exact ⟨_, h2⟩

/-- The base64 alphabet used by `base64.b64encode` / `b64decode`. -/
def b64Alphabet : List Char :=
  ['A', 'B', 'C', 'D', 'E', 'F', 'G', 'H', 'I', 'J', 'K', 'L', 'M',
   'N', 'O', 'P', 'Q', 'R', 'S', 'T', 'U', 'V', 'W', 'X', 'Y', 'Z',
   'a', 'b', 'c', 'd', 'e', 'f', 'g', 'h', 'i', 'j', 'k', 'l', 'm',
   'n', 'o', 'p', 'q', 'r', 's', 't', 'u', 'v', 'w', 'x', 'y', 'z',
   '0', '1', '2', '3', '4', '5', '6', '7', '8', '9', '+', '/']

/-- The base64 character for a sextet. -/
def b64Char (i : Nat) : Char := b64Alphabet.getD i '?'

/-- The sextet for a base64 character, `none` when the character is not in
the alphabet. -/
def b64Index (ch : Char) : Option Nat :=
  b64Alphabet.findIdx? (fun c => c = ch)

/-- Standard base64 encoding of a byte sequence, three bytes to four
characters with `=` padding, as performed by `base64.b64encode`. -/
def b64encodeBytes : List Nat → List Char
  | [] => []
  | [a] => [b64Char (a / 4), b64Char (a % 4 * 16), '=', '=']
  | [a, b] =>
      [b64Char (a / 4), b64Char (a % 4 * 16 + b / 16), b64Char (b % 16 * 4), '=']
  | a :: b :: c :: rest =>
      [b64Char (a / 4), b64Char (a % 4 * 16 + b / 16),
       b64Char (b % 16 * 4 + c / 64), b64Char (c % 64)] ++ b64encodeBytes rest

/-- Standard base64 decoding, the inverse of `b64encodeBytes`; `none` on an
alphabet violation or bad shape. -/
def b64decodeChars : List Char → Option (List Nat)
  | [] => some []
  | s1 :: s2 :: s3 :: s4 :: rest =>
    match b64Index s1, b64Index s2 with
    | some i1, some i2 =>
      if s3 = '=' then
        if s4 = '=' ∧ rest = [] then
          if i2 % 16 = 0 then some [i1 * 4 + i2 / 16] else none
        else none
      else
        match b64Index s3 with
        | some i3 =>
          if s4 = '=' then
            if rest = [] then
              if i3 % 4 = 0 then
                some [i1 * 4 + i2 / 16, i2 % 16 * 16 + i3 / 4]
              else none
            else none
          else
            match b64Index s4, b64decodeChars rest with
            | some i4, some bs =>
                some ((i1 * 4 + i2 / 16) :: (i2 % 16 * 16 + i3 / 4) ::
                  (i3 % 4 * 64 + i4) :: bs)
            | _, _ => none
        | none => none
    | _, _ => none
  | _ => none

theorem b64Index_b64Char : ∀ i, i < 64 → b64Index (b64Char i) = some i := by
  decide

theorem b64Char_ne_pad : ∀ i, i < 64 → b64Char i ≠ '=' := by
  decide

/-- Base64 round trip: decoding an encoded byte sequence (all entries
below 256) gives back the original sequence. -/
theorem b64_roundtrip : ∀ bytes : List Nat, (∀ x ∈ bytes, x < 256) →
    b64decodeChars (b64encodeBytes bytes) = some bytes
  | [], _ => by simp [b64encodeBytes, b64decodeChars]
  | [a], h => by
      have ha : a < 256 := h a (by simp)
      have h1 : a / 4 < 64 := by omega
      have h2 : a % 4 * 16 < 64 := by omega
      have hm : a % 4 * 16 % 16 = 0 := by omega
      have e1 : a / 4 * 4 + a % 4 * 16 / 16 = a := by omega
      simp [b64encodeBytes, b64decodeChars, b64Index_b64Char _ h1,
        b64Index_b64Char _ h2, hm, e1]
      omega
  | [a, b], h => by
      have ha : a < 256 := h a (by simp)
      have hb : b < 256 := h b (by simp)
      have h1 : a / 4 < 64 := by omega
      have h2 : a % 4 * 16 + b / 16 < 64 := by omega
      have h3 : b % 16 * 4 < 64 := by omega
      have hm : b % 16 * 4 % 4 = 0 := by omega
      have e1 : a / 4 * 4 + (a % 4 * 16 + b / 16) / 16 = a := by omega
      have e2 : (a % 4 * 16 + b / 16) % 16 * 16 + b % 16 * 4 / 4 = b := by
        omega
      simp [b64encodeBytes, b64decodeChars, b64Index_b64Char _ h1,
        b64Index_b64Char _ h2, b64Index_b64Char _ h3,
        b64Char_ne_pad _ h3, hm, e1, e2]
      omega
  | a :: b :: c :: d :: rest, h => by
      have ha : a < 256 := h a (by simp)
      have hb : b < 256 := h b (by simp)
      have hc : c < 256 := h c (by simp)
      have h1 : a / 4 < 64 := by omega
      have h2 : a % 4 * 16 + b / 16 < 64 := by omega
      have h3 : b % 16 * 4 + c / 64 < 64 := by omega
      have h4 : c % 64 < 64 := by omega
      have ih := b64_roundtrip (d :: rest)
        (fun x hx => h x (by simp at hx ⊢; tauto))
      have e1 : a / 4 * 4 + (a % 4 * 16 + b / 16) / 16 = a := by omega
      have e2 : (a % 4 * 16 + b / 16) % 16 * 16 + (b % 16 * 4 + c / 64) / 4 = b := by
        omega
      have e3 : (b % 16 * 4 + c / 64) % 4 * 64 + c % 64 = c := by omega
      simp [b64encodeBytes, b64decodeChars, b64Index_b64Char _ h1,
        b64Index_b64Char _ h2, b64Index_b64Char _ h3, b64Index_b64Char _ h4,
        b64Char_ne_pad _ h3, b64Char_ne_pad _ h4, ih, e1, e2, e3]
  | [a, b, c], h => by
      have ha : a < 256 := h a (by simp)
      have hb : b < 256 := h b (by simp)
      have hc : c < 256 := h c (by simp)
      have h1 : a / 4 < 64 := by omega
      have h2 : a % 4 * 16 + b / 16 < 64 := by omega
      have h3 : b % 16 * 4 + c / 64 < 64 := by omega
      have h4 : c % 64 < 64 := by omega
      have e1 : a / 4 * 4 + (a % 4 * 16 + b / 16) / 16 = a := by omega
      have e2 : (a % 4 * 16 + b / 16) % 16 * 16 + (b % 16 * 4 + c / 64) / 4 = b := by
        omega
      have e3 : (b % 16 * 4 + c / 64) % 4 * 64 + c % 64 = c := by omega
      simp [b64encodeBytes, b64decodeChars, b64Index_b64Char _ h1,
        b64Index_b64Char _ h2, b64Index_b64Char _ h3, b64Index_b64Char _ h4,
        b64Char_ne_pad _ h3, b64Char_ne_pad _ h4, e1, e2, e3]

/-- ASCII lowercasing, modelling `str.lower()` / `Path.suffix.lower()`. -/
def strToLower (s : String) : String :=
  String.mk (s.toList.map Char.toLower)

/-- Splitting a character list on a separator character, with the
semantics of `str.split(sep)`. -/
def splitOnChar (sep : Char) : List Char → List (List Char)
  | [] => [[]]
  | c :: rest =>
    let r := splitOnChar sep rest
    if c = sep then [] :: r
    else
      match r with
      | [] => [[c]]
      | g :: gs => (c :: g) :: gs

/-- Index of the last dot in a character list, if any. -/
def lastDotIdx (cs : List Char) : Option Nat :=
  match cs.reverse.findIdx? (fun c => c = '.') with
  | none => none
  | some j => some (cs.length - 1 - j)

/-- `pathlib.Path(p).suffix`: the final component's extension from its last
dot onward; empty when the last dot is absent, leading or trailing. -/
def path_suffix (p : String) : String :=
  let name := (splitOnChar '/' p.toList).getLastD []
  match lastDotIdx name with
  | none => ""
  | some i =>
      if 0 < i ∧ i < name.length - 1 then String.mk (name.drop i) else ""

/-- Filesystem collaborator for the output writer: whether
`mkdir(parents=True, exist_ok=True)` succeeds, whether the parent directory
already exists, and whether `write_text` succeeds. -/
structure FsState where
  mkdir_ok : Bool
  parent_exists : Bool
  write_text_ok : Bool
deriving Repr, DecidableEq

/-- The external PNG codec (`cv2.imencode(".png", ...)` and the
corresponding decoder), a black-box collaborator. -/
structure PngCodec where
  encode : Image → Option (List Nat)
  decode : List Nat → Option Image

/-- A codec is lossless when decoding an encoding returns the original
image, and encodings are byte sequences. -/
def PngCodec.Lossless (c : PngCodec) : Prop :=
  ∀ img buf, c.encode img = some buf →
    (∀ x ∈ buf, x < 256) ∧ c.decode buf = some img

/-- The HTML document assembled by `save_html`: title, generation
timestamp, pixel dimensions and the base64 payload of the embedded
`data:image/png` URL. -/
structure HtmlDoc where
  title : String
  timestamp : String
  width : Nat
  height : Nat
  img_b64 : List Char
deriving Repr, DecidableEq

/-- `html.escape` with quoting, as applied to the title and timestamp. -/
def htmlEscapeChar (c : Char) : List Char :=
  if c = '&' then "&amp;".toList
  else if c = '<' then "&lt;".toList
  else if c = '>' then "&gt;".toList
  else if c = '"' then "&quot;".toList
  else if c = Char.ofNat 39 then "&#x27;".toList
  else [c]

/-- `html.escape` over a whole string. -/
def html_escape (s : String) : String :=
  String.mk (List.flatten (s.toList.map htmlEscapeChar))

/-- The rendered UTF-8 text of the HTML document (the f-string template in
`save_html`; literal braces written as escapes). -/
def renderHtml (d : HtmlDoc) : String :=
  "<!DOCTYPE html>\n<html lang=\"en\">\n<head>\n  <meta charset=\"UTF-8\">\n" ++
  "  <meta name=\"viewport\" content=\"width=device-width, initial-scale=1.0\">\n" ++
  "  <title>" ++ html_escape d.title ++ "</title>\n" ++
  "  <style>\n    body \x7b\n      font-family: Arial, sans-serif;\n" ++
  "      margin: 0;\n      padding: 20px;\n      background: #f5f5f5;\n    \x7d\n" ++
  "    h1 \x7b\n      color: #333;\n    \x7d\n" ++
  "    .meta \x7b\n      color: #666;\n      margin-bottom: 16px;\n      font-size: 0.9em;\n    \x7d\n" ++
  "    .image-container \x7b\n      max-width: 100%;\n      overflow: auto;\n    \x7d\n" ++
  "    img \x7b\n      max-width: 100%;\n      height: auto;\n      border: 1px solid #ccc;\n      border-radius: 4px;\n    \x7d\n" ++
  "  </style>\n</head>\n<body>\n  <h1>" ++ html_escape d.title ++ "</h1>\n" ++
  "  <p class=\"meta\">\n    Size: " ++ html_escape (toString d.width) ++
  "&times;" ++ html_escape (toString d.height) ++ " pixels &bull; Generated: " ++
  html_escape d.timestamp ++ "\n  </p>\n  <div class=\"image-container\">\n" ++
  "    <img src=\"data:image/png;base64," ++ String.mk d.img_b64 ++
  "\" alt=\"" ++ html_escape d.title ++ "\">\n  </div>\n</body>\n</html>\n"

/-- Shared parent-directory handling of `save_image` and `save_html`:
`create_dirs` attempts `mkdir` (failure is OutputError), otherwise a
missing parent is a ValidationError. -/
def ensureParentDir (fs : FsState) (create_dirs : Bool) (output_path : String) :
    Except AFError Unit :=
  if create_dirs then
    if fs.mkdir_ok then .ok ()
    else .error (.outputError "Failed to create output directory")
  else if fs.parent_exists then .ok ()
  else .error (.validationError
    ("Output directory does not exist: " ++ output_path))

/-- Embedding of `save_html` from `output.py`: empty check, directory
handling, in-memory PNG encode (`cv2.imencode` failure and a raised
`cv2.error` both collapse to the encode-failure OutputError), base64
encoding, document assembly, `write_text`. -/
def save_html (codec : PngCodec) (fs : FsState) (timestamp : String)
    (image : Image) (output_path : String) (create_dirs : Bool)
    (title : String) : Except AFError HtmlDoc :=
  if image.data = [] then
    .error (.validationError "Cannot save empty or None image")
  else
    match ensureParentDir fs create_dirs output_path with
    | .error e => .error e
    | .ok _ =>
      match codec.encode image with
      | none => .error (.outputError "Failed to encode image for HTML output")
      | some buffer =>
        let doc : HtmlDoc :=
          ⟨title, timestamp, image.width, image.height, b64encodeBytes buffer⟩
        if fs.write_text_ok then .ok doc
        else .error (.outputError "Failed to write HTML file")

/-- What `save_image` wrote: a raster file via `cv2.imwrite` with its
format parameters, or the delegated HTML report. -/
inductive SaveAction where
  | raster (path : String) (params : List (String × Int))
  | htmlReport (doc : HtmlDoc)
deriving Repr

/-- Embedding of `save_image` from `output.py`, in source order: empty
check, quality validation, compression validation, directory handling,
`.html` dispatch to `save_html`, otherwise raster write via `cv2.imwrite`
(modelled by the `imwrite` argument: `none` is a raised `cv2.error`,
`some b` its boolean return). -/
def save_image (codec : PngCodec) (fs : FsState) (imwrite : Option Bool)
    (timestamp : String) (image : Image) (output_path : String)
    (create_dirs : Bool) (quality : Int) (png_compression : Int) :
    Except AFError SaveAction :=
  if image.data = [] then
    .error (.validationError "Cannot save empty or None image")
  else if ¬(1 ≤ quality ∧ quality ≤ 100) then
    .error (.validationError
      ("JPEG quality must be 1-100, got " ++ toString quality))
  else if ¬(0 ≤ png_compression ∧ png_compression ≤ 9) then
    .error (.validationError
      ("PNG compression must be 0-9, got " ++ toString png_compression))
  else
    match ensureParentDir fs create_dirs output_path with
    | .error e => .error e
    | .ok _ =>
      if strToLower (path_suffix output_path) = ".html" then
        (save_html codec fs timestamp image output_path create_dirs
          "Orthomosaic").map .htmlReport
      else
        let suffix := strToLower (path_suffix output_path)
        let params : List (String × Int) :=
          if suffix = ".jpg" ∨ suffix = ".jpeg" then
            [("IMWRITE_JPEG_QUALITY", quality)]
          else if suffix = ".png" then
            [("IMWRITE_PNG_COMPRESSION", png_compression)]
          else []
        match imwrite with
        | none => .error (.outputError "OpenCV error saving image")
        | some false => .error (.outputError
            ("Failed to write output image to " ++ output_path))
        | some true => .ok (.raster output_path params)

/-- C8: for a lossless codec, whenever `save_html` succeeds, base64-decoding
the payload embedded in the document and decoding the PNG bytes reproduces
the original pixel buffer exactly. -/
theorem save_html_roundtrip (codec : PngCodec) (fs : FsState) (ts : String)
    (img : Image) (path : String) (cd : Bool) (title : String) (doc : HtmlDoc)
    (hlossless : codec.Lossless)
    (hok : save_html codec fs ts img path cd title = .ok doc) :
    (b64decodeChars doc.img_b64).bind codec.decode = some img := by
  by_cases hempty : img.data = []
  · simp [save_html, hempty] at hok
  · rcases hdir : ensureParentDir fs cd path with e | u
    · simp [save_html, hempty, hdir] at hok
    · rcases henc : codec.encode img with _ | buffer
      · simp [save_html, hempty, hdir, henc] at hok
      · rcases hlossless img buffer henc with ⟨hbytes, hdec⟩
        rcases hw : fs.write_text_ok with _ | _
        · simp [save_html, hempty, hdir, henc, hw] at hok
        · simp [save_html, hempty, hdir, henc, hw] at hok
          subst hok
          simp [b64_roundtrip buffer hbytes, Option.bind, hdec]

/-- A concrete filesystem state in which every operation succeeds. -/
def fsAllOk : FsState := ⟨true, true, true⟩

/-- A concrete codec, lossless by construction, used as C8 witness data. -/
def witnessCodec : PngCodec where
  encode := fun img => if img = imgA then some [99] else none
  decode := fun buf => if buf = [99] then some imgA else none

theorem witnessCodec_lossless : witnessCodec.Lossless := by
  intro img buf h
  simp only [witnessCodec] at h
  by_cases himg : img = imgA
  · rw [if_pos himg] at h
    cases h
    subst himg
    exact ⟨by decide, by simp [witnessCodec]⟩
  · rw [if_neg himg] at h
    cases h

/-- C8 witness: the round-trip theorem applied to the concrete image `imgA`
with the concrete lossless codec. -/
theorem save_html_roundtrip_witness :
    (b64decodeChars (HtmlDoc.img_b64
        ⟨"Orthomosaic", "ts", 2, 1, b64encodeBytes [99]⟩)).bind
      witnessCodec.decode = some imgA :=
  save_html_roundtrip witnessCodec fsAllOk "ts" imgA "mosaic.html" true
    "Orthomosaic" ⟨"Orthomosaic", "ts", 2, 1, b64encodeBytes [99]⟩
    witnessCodec_lossless (by simp [save_html, imgA, ensureParentDir,
      fsAllOk, witnessCodec])

/-- C9: `save_image` validates the quality and compression parameters for
every output path, including `.html` paths: when the image is non-empty and
quality is out of 1..100, or quality is in range and png_compression is out
of 0..9, the call fails with ValidationError before any output is
attempted. -/
theorem save_image_validates_params_for_every_path (codec : PngCodec)
    (fs : FsState) (imwrite : Option Bool) (ts : String) (img : Image)
    (path : String) (cd : Bool) (q c : Int)
    (hne : img.data ≠ [])
    (hbad : ¬(1 ≤ q ∧ q ≤ 100) ∨ ((1 ≤ q ∧ q ≤ 100) ∧ ¬(0 ≤ c ∧ c ≤ 9))) :
    ∃ m, save_image codec fs imwrite ts img path cd q c =
      .error (.validationError m) := by
  rcases hbad with hq | ⟨hq, hc⟩
  · exact ⟨"JPEG quality must be 1-100, got " ++ toString q,
      by simp [save_image, hne, hq]⟩
  · exact ⟨"PNG compression must be 0-9, got " ++ toString c,
      by simp [save_image, hne, hq, hc]⟩

/-- C9 witness: the parameter-validation theorem at quality 150 on the
`.html` path "mosaic.html" with a non-empty concrete image. -/
theorem save_image_validates_params_witness :
    ∃ m, save_image witnessCodec fsAllOk (some true) "ts" imgA "mosaic.html"
      true 150 3 = .error (.validationError m) :=
  save_image_validates_params_for_every_path witnessCodec fsAllOk (some true)
    "ts" imgA "mosaic.html" true 150 3 (by decide) (Or.inl (by decide))

/-- The message carried by an error (`str(exc)` in the handler). -/
def afErrorMessage : AFError → String
  | .validationError m => m
  | .securityError m => m
  | .imageLoadError m => m
  | .stitchingError m => m
  | .outputError m => m

/-- The characters after the first comma, when one is present. -/
def afterFirstComma : List Char → Option (List Char)
  | [] => none
  | c :: rest => if c = ',' then some rest else afterFirstComma rest

/-- Strips an optional data-URL head: everything after the first comma,
as in `b64.split(",", 1)[1]`, applied only when a comma is present. -/
def stripDataUrl (s : String) : String :=
  match afterFirstComma s.toList with
  | none => s
  | some cs => String.mk cs

/-- The per-image decode loop of `_handle_stitch`: base64-decode each
uploaded string and run `cv2.imdecode` (the `imdecode` argument) on the
bytes; the first failure aborts with the failing index and message kind. -/
def decodeImages (imdecode : List Nat → Option Image) :
    List String → Nat → Except (Nat × String) (List Image)
  | [], _ => .ok []
  | s :: rest, i =>
    match b64decodeChars (stripDataUrl s).toList with
    | none => .error (i, "Failed to decode image")
    | some raw =>
      match imdecode raw with
      | none => .error (i, "Could not read image")
      | some img => (decodeImages imdecode rest (i + 1)).map (fun l => img :: l)

/-- A parsed POST body for `/api/stitch`: either unparseable JSON or a
payload with optional `images` and `mode` keys. -/
inductive RequestBody where
  | malformed
  | payload (images : Option (List String)) (mode : Option String)

/-- The JSON response the handler sends, with its HTTP status code. -/
structure JsonResponse where
  status : Nat
  success : Bool
  error : Option String
  image : Option (List Char)
  width : Option Nat
  height : Option Nat
  image_count : Option Nat
deriving Repr, DecidableEq

/-- A failure response (`success: false` plus an error message). -/
def errResponse (status : Nat) (msg : String) : JsonResponse :=
  ⟨status, false, some msg, none, none, none, none⟩

/-- Embedding of `_AutoflightHandler._handle_stitch` from `server.py`:
malformed body 400, defaulted `images`/`mode` keys, empty image set 400,
per-image decode failure 400, any `AutoflightError` raised by
`stitch_images` 422, PNG-encode failure of the result 500, otherwise 200
with the base64 PNG and metadata.  (The `except Exception` 500 branch is
unreachable in the model: every collaborator returns a value.) -/
def handle_stitch (imdecode : List Nat → Option Image) (engine : Engine)
    (pngEncode : Image → Option (List Nat)) (body : RequestBody) :
    JsonResponse :=
  match body with
  | .malformed => errResponse 400 "Invalid request body"
  | .payload imagesOpt modeOpt =>
    let images_b64 := imagesOpt.getD []
    let mode := modeOpt.getD "panorama"
    if images_b64.isEmpty then errResponse 400 "No images provided"
    else
      match decodeImages imdecode images_b64 0 with
      | .error (i, m) => errResponse 400 (m ++ " " ++ toString (i + 1))
      | .ok images =>
        match (stitch_images engine images mode).result with
        | .error e => errResponse 422 (afErrorMessage e)
        | .ok stitched =>
          match pngEncode stitched with
          | none => errResponse 500 "Failed to encode result image"
          | some buf =>
            ⟨200, true, none, some (b64encodeBytes buf), some stitched.width,
             some stitched.height, some images.length⟩

/-- C10: a body without a "mode" key is processed exactly as if mode were
"panorama": the handler defaults silently instead of rejecting. -/
theorem handle_stitch_mode_defaults_to_panorama
    (imdecode : List Nat → Option Image) (engine : Engine)
    (pngEncode : Image → Option (List Nat)) (images : Option (List String)) :
    handle_stitch imdecode engine pngEncode (.payload images none) =
      handle_stitch imdecode engine pngEncode
        (.payload images (some "panorama")) := rfl

/-- C6 counterexample: a request with two decodable images and the
unrecognized mode "bogus" is answered with 422, not with the 400 the
bad-mode taxonomy entry prescribes: the ValidationError raised by
`stitch_images` is caught by the handler's AutoflightError branch. -/
theorem handle_stitch_bad_mode_is_422 :
    (handle_stitch (fun _ => some imgA) constEngine (fun _ => some [1])
      (.payload (some ["QQ==", "QQ=="]) (some "bogus"))).status = 422 := by
  rfl

/-- C6 (amended): status characterization of the handler.  400 exactly for
a malformed body, a missing or empty image list, or a failing image decode;
422 exactly when all images decode and the stitch call raises any domain
error (including the bad-mode ValidationError); 500 exactly when stitching
succeeds and result encoding fails; 200 otherwise. -/
theorem handle_stitch_status_characterization
    (imdecode : List Nat → Option Image) (engine : Engine)
    (pngEncode : Image → Option (List Nat)) :
    (handle_stitch imdecode engine pngEncode .malformed).status = 400 ∧
    (∀ modeOpt, (handle_stitch imdecode engine pngEncode
        (.payload none modeOpt)).status = 400) ∧
    (∀ modeOpt, (handle_stitch imdecode engine pngEncode
        (.payload (some []) modeOpt)).status = 400) ∧
    (∀ images modeOpt,
      let r := handle_stitch imdecode engine pngEncode
        (.payload (some images) modeOpt)
      (r.status = 400 ↔ images = [] ∨
          ∃ k m, decodeImages imdecode images 0 = .error (k, m)) ∧
      (r.status = 422 ↔ images ≠ [] ∧
          ∃ imgs e, decodeImages imdecode images 0 = .ok imgs ∧
            (stitch_images engine imgs (modeOpt.getD "panorama")).result =
              .error e) ∧
      (r.status = 500 ↔ images ≠ [] ∧
          ∃ imgs st, decodeImages imdecode images 0 = .ok imgs ∧
            (stitch_images engine imgs (modeOpt.getD "panorama")).result =
              .ok st ∧ pngEncode st = none) ∧
      (r.status = 200 ↔ images ≠ [] ∧
          ∃ imgs st buf, decodeImages imdecode images 0 = .ok imgs ∧
            (stitch_images engine imgs (modeOpt.getD "panorama")).result =
              .ok st ∧ pngEncode st = some buf)) := by
  refine ⟨rfl, fun _ => rfl, fun _ => rfl, fun images modeOpt => ?_⟩
  by_cases himg : images = []
  · subst himg
    simp [handle_stitch, errResponse]
  · rcases hd : decodeImages imdecode images 0 with ⟨k, m⟩ | imgs
    · simp [handle_stitch, errResponse, himg, hd, List.isEmpty_iff]
    · rcases hs : (stitch_images engine imgs (modeOpt.getD "panorama")).result
        with e | st
      · simp [handle_stitch, errResponse, himg, hd, hs, List.isEmpty_iff]
      · rcases hp : pngEncode st with _ | buf
        · simp [handle_stitch, errResponse, himg, hd, hs, hp,
            List.isEmpty_iff]
        · simp [handle_stitch, errResponse, himg, hd, hs, hp,
            List.isEmpty_iff]

/-- The supported image extensions from `image_loader.py`. -/
def SUPPORTED_EXTENSIONS : List String := [".jpg", ".jpeg", ".png", ".tif", ".tiff"]

/-- Embedding of `is_supported_image`: case-folded extension membership. -/
def is_supported_image (path : String) : Bool :=
  SUPPORTED_EXTENSIONS.contains (strToLower (path_suffix path))

/-- One directory entry as seen by `input_dir.iterdir()`. -/
structure DirEntry where
  path : String
  is_file : Bool
deriving Repr, DecidableEq

/-- Lexicographic comparison of character lists (code-point order, the
order Python uses for `sorted` over path strings). -/
def charListLe : List Char → List Char → Bool
  | [], _ => true
  | _ :: _, [] => false
  | a :: as, b :: bs =>
    if a < b then true
    else if b < a then false
    else charListLe as bs

/-- Lexicographic path order. -/
def pathLe (s t : String) : Bool := charListLe s.toList t.toList

/-- Insertion step of the path sort. -/
def insertPath (s : String) : List String → List String
  | [] => [s]
  | t :: rest => if pathLe s t then s :: t :: rest else t :: insertPath s rest

/-- `sorted(...)` over path strings (lexicographic). -/
def sortPaths : List String → List String
  | [] => []
  | s :: rest => insertPath s (sortPaths rest)

/-- Discovery in `load_images`: keep regular files with a supported
extension and sort by path, fixing the canonical indices. -/
def discoverPaths (entries : List DirEntry) : List String :=
  sortPaths ((entries.filter
    (fun e => e.is_file && is_supported_image e.path)).map DirEntry.path)

/-- Embedding of `load_single_image`: optional size validation (the
`path.stat()` collaborator is the `stat` argument), then `cv2.imread`
(the `imread` argument; `none` models a failed decode). -/
def load_single_image (stat : String → Option Nat)
    (imread : String → Option Image) (path : String)
    (validate_security : Bool) (limits : Option SecurityLimits) :
    Except AFError Image :=
  match (if validate_security then
      validate_file_size path (stat path) none
        (some (limits.getD get_default_limits))
    else .ok ()) with
  | .error e => .error e
  | .ok _ =>
    match imread path with
    | none => .error (.imageLoadError ("Failed to load image: " ++ path))
    | some img => .ok img

/-- The k-th load-progress event: fraction `k/n * 0.5` with its message. -/
def loadEventAt (n k : Nat) : ℚ × String :=
  (((k : ℚ) / (n : ℚ)) * (1 / 2),
   "Loaded " ++ toString k ++ "/" ++ toString n ++ " images")

/-- The sequential branch of `load_images`: load in canonical order,
emitting one progress event per image; the first failure aborts. -/
def seqLoadGo (loadOne : String → Except AFError Image) (n : Nat) :
    List String → Nat → Except AFError (List Image) × List (ℚ × String)
  | [], _ => (.ok [], [])
  | p :: rest, i =>
    match loadOne p with
    | .error e => (.error e, [])
    | .ok img =>
      let out := seqLoadGo loadOne n rest (i + 1)
      (out.1.map (fun l => img :: l), loadEventAt n (i + 1) :: out.2)

/-- The parallel branch of `load_images`: futures are tagged with their
canonical index at dispatch; `order` is the completion order produced by
`as_completed`.  Each completed result is written into its slot of the
pre-sized array, the completion counter drives progress events, and the
first failure aborts (in-flight results are discarded). -/
def parLoadGo (loadOne : String → Except AFError Image) (paths : List String)
    (n : Nat) :
    List Nat → List (Option Image) → Nat →
      Except AFError (List (Option Image)) × List (ℚ × String)
  | [], slots, _ => (.ok slots, [])
  | i :: rest, slots, completed =>
    match loadOne (paths.getD i "") with
    | .error e => (.error e, [])
    | .ok img =>
      let out := parLoadGo loadOne paths n rest (slots.set i (some img))
        (completed + 1)
      (out.1, loadEventAt n (completed + 1) :: out.2)

/-- The placeholder an unfilled slot would yield through the unchecked
`cast` (never reached when every future completed). -/
def emptyImage : Image := ⟨0, 0, []⟩

/-- Outcome of one `load_images` call: result plus progress events. -/
structure LoadOutcome where
  result : Except AFError (List Image)
  events : List (ℚ × String)
deriving Repr

/-- Embedding of `load_images` from `image_loader.py`, in source order:
discovery and sort, empty-directory check, file-count validation, the 0.0
progress event, then the parallel (slot-array, completion-order `order`)
or sequential branch. -/
def load_images (stat : String → Option Nat) (imread : String → Option Image)
    (entries : List DirEntry) (parallel : Bool) (validate_security : Bool)
    (limits : Option SecurityLimits) (order : List Nat) : LoadOutcome :=
  let image_paths := discoverPaths entries
  if image_paths.isEmpty then
    ⟨.error (.imageLoadError "No supported images found"), []⟩
  else
    let limits2 :=
      if validate_security then some (limits.getD get_default_limits)
      else limits
    match (if validate_security then
        validate_file_count image_paths.length none limits2
      else .ok ()) with
    | .error e => ⟨.error e, []⟩
    | .ok _ =>
      let n := image_paths.length
      let ev0 : List (ℚ × String) :=
        [((0 : ℚ), "Loading " ++ toString n ++ " images...")]
      let loadOne := fun p =>
        load_single_image stat imread p validate_security limits2
      if parallel = true ∧ 1 < n then
        match parLoadGo loadOne image_paths n order
            (List.replicate n none) 0 with
        | (.error e, evs) => ⟨.error e, ev0 ++ evs⟩
        | (.ok slots, evs) =>
            ⟨.ok (slots.map (fun o => o.getD emptyImage)), ev0 ++ evs⟩
      else
        let out := seqLoadGo loadOne n image_paths 0
        ⟨out.1, ev0 ++ out.2⟩

theorem seqLoadGo_spec (loadOne : String → Except AFError Image)
    (f : String → Image) (n : Nat) :
    ∀ (paths : List String) (i : Nat),
      (∀ p ∈ paths, loadOne p = .ok (f p)) →
      seqLoadGo loadOne n paths i =
        (.ok (paths.map f),
         (List.range paths.length).map (fun k => loadEventAt n (i + k + 1)))
  | [], i, _ => by simp [seqLoadGo]
  | p :: rest, i, h => by
      have hp : loadOne p = .ok (f p) := h p (by simp)
      have ih := seqLoadGo_spec loadOne f n rest (i + 1)
        (fun q hq => h q (by simp [hq]))
      have hmap : (List.range rest.length).map
          (fun k => loadEventAt n (i + 1 + k + 1)) =
          (List.range rest.length).map
            (fun k => loadEventAt n (i + (k + 1) + 1)) :=
        List.map_congr_left (fun k _ => by congr 1; omega)
      simp only [seqLoadGo, hp, ih, hmap, List.length_cons,
        List.range_succ_eq_map, List.map_map, List.map_cons,
        Function.comp_def, Except.map, Nat.succ_eq_add_one, Nat.add_zero]

theorem parLoadGo_spec (loadOne : String → Except AFError Image)
    (f : String → Image) (paths : List String) (n : Nat) :
    ∀ (order : List Nat) (slots : List (Option Image)) (completed : Nat),
      (∀ i ∈ order, loadOne (paths.getD i "") = .ok (f (paths.getD i ""))) →
      parLoadGo loadOne paths n order slots completed =
        (.ok (order.foldl
            (fun s i => s.set i (some (f (paths.getD i "")))) slots),
         (List.range order.length).map
           (fun k => loadEventAt n (completed + k + 1)))
  | [], slots, completed, _ => by simp [parLoadGo]
  | i :: rest, slots, completed, h => by
      have hi := h i (by simp)
      have ih := parLoadGo_spec loadOne f paths n rest
        (slots.set i (some (f (paths.getD i "")))) (completed + 1)
        (fun j hj => h j (by simp [hj]))
      have hmap : (List.range rest.length).map
          (fun k => loadEventAt n (completed + 1 + k + 1)) =
          (List.range rest.length).map
            (fun k => loadEventAt n (completed + (k + 1) + 1)) :=
        List.map_congr_left (fun k _ => by congr 1; omega)
      simp only [parLoadGo, hi, ih, hmap, List.foldl_cons, List.length_cons,
        List.range_succ_eq_map, List.map_map, List.map_cons,
        Function.comp_def, Nat.succ_eq_add_one, Nat.add_zero]

theorem getElem?_foldl_set (g : Nat → Image) :
    ∀ (order : List Nat) (slots : List (Option Image)) (j : Nat),
      (order.foldl (fun s i => s.set i (some (g i))) slots)[j]? =
        if j ∈ order ∧ j < slots.length then some (some (g j))
        else slots[j]?
  | [], slots, j => by simp
  | i :: rest, slots, j => by
      have ih := getElem?_foldl_set g rest (slots.set i (some (g i))) j
      simp only [List.foldl_cons] at ih ⊢
      rw [ih, List.length_set, List.getElem?_set]
      simp only [List.mem_cons]
      by_cases h1 : j ∈ rest
      · by_cases h2 : j < slots.length
        · simp [h1, h2]
        · have hnone : slots[j]? = none :=
            List.getElem?_eq_none (Nat.le_of_not_lt h2)
          by_cases h3 : i = j
          · subst h3
            simp [h1, h2, hnone]
          · simp [h1, h2, h3, hnone]
      · by_cases h3 : i = j
        · subst h3
          by_cases h2 : i < slots.length
          · simp [h1, h2]
          · have hnone : slots[i]? = none :=
              List.getElem?_eq_none (Nat.le_of_not_lt h2)
            simp [h1, h2, hnone]
        · have h3' : ¬ (j = i) := fun hh => h3 hh.symm
          simp [h1, h3, h3']

theorem foldl_set_of_perm (g : Nat → Image) (n : Nat) (order : List Nat)
    (hperm : order.Perm (List.range n)) :
    order.foldl (fun s i => s.set i (some (g i))) (List.replicate n none) =
      (List.range n).map (fun j => some (g j)) := by
  apply List.ext_getElem?
  intro j
  rw [getElem?_foldl_set]
  have hmem : j ∈ order ↔ j < n := by rw [hperm.mem_iff, List.mem_range]
  by_cases hj : j < n
  · simp [hmem, hj, List.getElem?_map, List.getElem?_range hj]
  · have h1 : (List.replicate n (none : Option Image))[j]? = none :=
      List.getElem?_eq_none (by simpa using Nat.le_of_not_lt hj)
    have h2 : ((List.range n).map (fun j => some (g j)))[j]? = none :=
      List.getElem?_eq_none (by simpa using Nat.le_of_not_lt hj)
    simp [hmem, hj, h1, h2]

theorem map_getD_range (f : String → Image) :
    ∀ l : List String,
      (List.range l.length).map (fun j => f (l.getD j "")) = l.map f
  | [] => by simp
  | s :: rest => by
      have ih := map_getD_range f rest
      have hmap : (List.range rest.length).map
          (fun k => f ((s :: rest).getD (k + 1) "")) =
          (List.range rest.length).map (fun j => f (rest.getD j "")) :=
        List.map_congr_left (fun k _ => by rw [List.getD_cons_succ])
      simp only [List.length_cons, List.range_succ_eq_map, List.map_cons,
        List.map_map, List.getD_cons_zero, Function.comp_def,
        Nat.succ_eq_add_one, hmap, ih]

/-- Canonical outcome of a fully successful `load_images` call: the images
in canonical path order and the canonical progress trace, for either value
of `parallel` and any completion order. -/
theorem load_images_spec (stat : String → Option Nat)
    (imread : String → Option Image) (entries : List DirEntry)
    (limits : Option SecurityLimits) (order : List Nat) (f : String → Image)
    (hn : 1 ≤ (discoverPaths entries).length)
    (hcount : (discoverPaths entries).length ≤
      (limits.getD get_default_limits).max_files)
    (hperm : order.Perm (List.range (discoverPaths entries).length))
    (hload : ∀ p ∈ discoverPaths entries,
      load_single_image stat imread p true
        (some (limits.getD get_default_limits)) = .ok (f p)) :
    ∀ parallel, load_images stat imread entries parallel true limits order =
      ⟨.ok ((discoverPaths entries).map f),
       ((0 : ℚ), "Loading " ++ toString (discoverPaths entries).length ++
           " images...") ::
         (List.range (discoverPaths entries).length).map
           (fun k => loadEventAt (discoverPaths entries).length (k + 1))⟩ := by
  intro parallel
  have hne : (discoverPaths entries).isEmpty = false := by
    cases hd : discoverPaths entries with
    | nil => rw [hd] at hn; simp at hn
    | cons a l => rfl
  have hvc : validate_file_count (discoverPaths entries).length none
      (some (limits.getD get_default_limits)) = .ok () := by
    simp only [validate_file_count, Option.getD_some, Option.getD_none]
    rw [if_neg (by omega)]
  by_cases hpar : parallel = true ∧ 1 < (discoverPaths entries).length
  · obtain ⟨hp1, hp2⟩ := hpar
    subst hp1
    have hloadOne : ∀ i ∈ order,
        load_single_image stat imread ((discoverPaths entries).getD i "") true
          (some (limits.getD get_default_limits)) =
          .ok (f ((discoverPaths entries).getD i "")) := by
      intro i hi
      have hilt : i < (discoverPaths entries).length := by
        have := hperm.mem_iff.mp hi
        simpa using this
      have hmem : (discoverPaths entries).getD i "" ∈ discoverPaths entries := by
        rw [List.getD_eq_getElem (discoverPaths entries) "" hilt]
        exact List.getElem_mem hilt
      exact hload _ hmem
    have hpargo := parLoadGo_spec
      (fun p => load_single_image stat imread p true
        (some (limits.getD get_default_limits)))
      f (discoverPaths entries) (discoverPaths entries).length order
      (List.replicate (discoverPaths entries).length none) 0 hloadOne
    have hfold := foldl_set_of_perm
      (fun j => f ((discoverPaths entries).getD j ""))
      (discoverPaths entries).length order hperm
    have hlen : order.length = (discoverPaths entries).length := by
      simpa using hperm.length_eq
    have hslots : (((List.range (discoverPaths entries).length).map
        (fun j => some (f ((discoverPaths entries).getD j "")))).map
        (fun o => o.getD emptyImage)) = (discoverPaths entries).map f := by
      rw [List.map_map]
      exact map_getD_range f (discoverPaths entries)
    simp only [load_images, hne, Bool.false_eq_true, if_false, if_true,
      eq_self_iff_true, hp2, and_self, hvc, hpargo, hfold, hlen, hslots]
    simp [LoadOutcome.mk.injEq]
  · have hseqgo := seqLoadGo_spec
      (fun p => load_single_image stat imread p true
        (some (limits.getD get_default_limits)))
      f (discoverPaths entries).length (discoverPaths entries) 0 hload
    simp only [load_images, hne, Bool.false_eq_true, if_false, if_true,
      eq_self_iff_true, hvc, hpar, hseqgo]
    simp [LoadOutcome.mk.injEq]

/-- C1: for a directory with at least two loadable images (and a count
within limits), parallel loading returns a list identical to sequential
loading for every completion order of the concurrent tasks, and both equal
the loads of the lexicographically sorted file paths in canonical order. -/
theorem load_images_parallel_eq_sequential (stat : String → Option Nat)
    (imread : String → Option Image) (entries : List DirEntry)
    (limits : Option SecurityLimits) (order : List Nat) (f : String → Image)
    (h2 : 2 ≤ (discoverPaths entries).length)
    (hcount : (discoverPaths entries).length ≤
      (limits.getD get_default_limits).max_files)
    (hperm : order.Perm (List.range (discoverPaths entries).length))
    (hload : ∀ p ∈ discoverPaths entries,
      load_single_image stat imread p true
        (some (limits.getD get_default_limits)) = .ok (f p)) :
    load_images stat imread entries true true limits order =
      load_images stat imread entries false true limits order ∧
    (load_images stat imread entries true true limits order).result =
      .ok ((discoverPaths entries).map f) := by
  have hs := load_images_spec stat imread entries limits order f
    (by omega) hcount hperm hload
  refine ⟨(hs true).trans (hs false).symm, ?_⟩
  rw [hs true]

/-- A two-file directory used as concrete witness data. -/
def entries2 : List DirEntry := [⟨"b.jpg", true⟩, ⟨"a.jpg", true⟩]

/-- A one-file directory used as concrete counterexample data. -/
def entries1 : List DirEntry := [⟨"a.jpg", true⟩]

/-- A concrete `stat` collaborator: every file is 1000 bytes. -/
def statW : String → Option Nat := fun _ => some 1000

/-- A concrete `imread` collaborator decoding every file. -/
def imreadW : String → Option Image :=
  fun p => if p = "a.jpg" then some imgA else some imgB

/-- The pure loading function matching `imreadW`. -/
def loadW : String → Image := fun p => if p = "a.jpg" then imgA else imgB

/-- C1 witness: the determinism theorem applied to a concrete two-image
directory with the reversed completion order [1, 0]. -/
theorem load_images_parallel_eq_sequential_witness :
    load_images statW imreadW entries2 true true none [1, 0] =
      load_images statW imreadW entries2 false true none [1, 0] ∧
    (load_images statW imreadW entries2 true true none [1, 0]).result =
      .ok ((discoverPaths entries2).map loadW) :=
  load_images_parallel_eq_sequential statW imreadW entries2 none [1, 0] loadW
    (by decide) (by decide)
    (by
      rw [show List.range (discoverPaths entries2).length = [0, 1] from rfl]
      exact List.Perm.swap 0 1 [])
    (by
      have hd : discoverPaths entries2 = ["a.jpg", "b.jpg"] := by decide
      rw [hd]
      intro p hp
      fin_cases hp <;> rfl)

/-- When `stitch_images` succeeds on two or more images, its event trace is
exactly the 0.5 / 0.6 / 0.95 sequence. -/
theorem stitch_ok_events (engine : Engine) (images : List Image)
    (mode : String) (st : Image) (h2 : 2 ≤ images.length)
    (hok : (stitch_images engine images mode).result = .ok st) :
    (stitch_images engine images mode).events =
      [((1/2 : ℚ), "Stitching " ++ toString images.length ++ " images..."),
       ((3/5 : ℚ), "Feature detection and matching..."),
       ((19/20 : ℚ), "Stitching complete")] := by
  match images, h2 with
  | a :: b :: rest, _ =>
    by_cases hp : mode = "panorama"
    · subst hp
      rcases heng : engine .panorama (a :: b :: rest) with ⟨status, stitched⟩
      cases status <;> cases stitched <;>
        simp [stitch_images, runEngineStage, heng] at hok ⊢
    · by_cases hs : mode = "scans"
      · subst hs
        rcases heng : engine .scans (a :: b :: rest) with ⟨status, stitched⟩
        cases status <;> cases stitched <;>
          simp [stitch_images, runEngineStage, heng, hp] at hok ⊢
      · simp [stitch_images, hp, hs] at hok

/-- The dataclass `OrthomosaicResult` from `orthomosaic.py`. -/
structure OrthomosaicResult where
  output_path : String
  image_count : Nat
  size : Nat × Nat
deriving Repr, DecidableEq

/-- Outcome of one `create_orthomosaic` call: result plus all progress
events delivered to the callback, in order. -/
structure PipelineOutcome where
  result : Except AFError OrthomosaicResult
  events : List (ℚ × String)
deriving Repr

/-- Embedding of `create_orthomosaic` from `orthomosaic.py`: the 0.0 start
event, `load_images` (parallel per the flag, security on, default limits),
`stitch_images`, the 0.95 saving event, `save_image` with the given quality
and default png_compression 3 and create_dirs True, and the final 1.0
event; the first failure propagates with the events delivered so far. -/
def create_orthomosaic (stat : String → Option Nat)
    (imread : String → Option Image) (engine : Engine) (codec : PngCodec)
    (fs : FsState) (imwrite : Option Bool) (timestamp : String)
    (entries : List DirEntry) (output_path : String) (parallel : Bool)
    (mode : String) (quality : Int) (order : List Nat) : PipelineOutcome :=
  let ev0 : List (ℚ × String) :=
    [((0 : ℚ), "Starting orthomosaic creation...")]
  let lo := load_images stat imread entries parallel true none order
  match lo.result with
  | .error e => ⟨.error e, ev0 ++ lo.events⟩
  | .ok images =>
    let so := stitch_images engine images mode
    match so.result with
    | .error e => ⟨.error e, ev0 ++ lo.events ++ so.events⟩
    | .ok stitched =>
      let ev1 : List (ℚ × String) := [((19/20 : ℚ), "Saving output...")]
      match save_image codec fs imwrite timestamp stitched output_path true
          quality 3 with
      | .error e => ⟨.error e, ev0 ++ lo.events ++ so.events ++ ev1⟩
      | .ok _ =>
          ⟨.ok ⟨output_path, images.length, (stitched.width, stitched.height)⟩,
           ev0 ++ lo.events ++ so.events ++ ev1 ++ [((1 : ℚ), "Complete!")]⟩

/-- C2 counterexample: a successful run over a directory with exactly one
image delivers the fractions 0, 0, 0.5, 1, 0.95, 1: the stitch stage
reports 1.0 (single-image shortcut) and the pipeline then reports 0.95
before saving, so the sequence is not monotonically non-decreasing. -/
theorem pipeline_progress_dip_on_single_image :
    ((create_orthomosaic statW imreadW constEngine witnessCodec fsAllOk
        (some true) "ts" entries1 "out.jpg" true "panorama" 95 [0]).result.isOk
      = true) ∧
    ¬ List.Chain' (· ≤ ·)
      ((create_orthomosaic statW imreadW constEngine witnessCodec fsAllOk
          (some true) "ts" entries1 "out.jpg" true "panorama" 95
          [0]).events.map Prod.fst) := by
  have hd : discoverPaths entries1 = ["a.jpg"] := by decide
  have hrange : List.range (discoverPaths entries1).length = [0] := by
    rw [hd]
    rfl
  have hspec := load_images_spec statW imreadW entries1 none [0] loadW
    (by rw [hd]; decide) (by rw [hd]; decide)
    (by rw [hrange])
    (by rw [hd]; intro p hp; fin_cases hp <;> rfl) true
  have hstitch : stitch_images constEngine
      ((discoverPaths entries1).map loadW) "panorama" =
      ⟨.ok imgA, [((1 : ℚ), "Single image - no stitching needed")], 0⟩ := by
    rw [hd]; rfl
  have hsave : save_image witnessCodec fsAllOk (some true) "ts" imgA
      "out.jpg" true 95 3 =
      .ok (.raster "out.jpg" [("IMWRITE_JPEG_QUALITY", 95)]) := rfl
  have hcreate : create_orthomosaic statW imreadW constEngine witnessCodec
      fsAllOk (some true) "ts" entries1 "out.jpg" true "panorama" 95 [0] =
      ⟨.ok ⟨"out.jpg", ((discoverPaths entries1).map loadW).length,
          (imgA.width, imgA.height)⟩,
       [((0 : ℚ), "Starting orthomosaic creation...")] ++
         (((0 : ℚ), "Loading " ++
             toString (discoverPaths entries1).length ++ " images...") ::
           (List.range (discoverPaths entries1).length).map
             (fun k => loadEventAt (discoverPaths entries1).length
               (k + 1))) ++
         [((1 : ℚ), "Single image - no stitching needed")] ++
         [((19/20 : ℚ), "Saving output...")] ++
         [((1 : ℚ), "Complete!")]⟩ := by
    simp only [create_orthomosaic, hspec, hstitch, hsave]
  constructor
  · rw [hcreate]
    rfl
  · intro hchain
    rw [hcreate] at hchain
    rw [hd] at hchain
    norm_num [List.chain'_cons, loadEventAt, List.range_succ] at hchain

/-- The fractions of the canonical load-progress trace. -/
def loadFracs (n : Nat) : List ℚ :=
  (List.range n).map (fun k => (((k + 1 : ℕ) : ℚ) / (n : ℚ)) * (1 / 2))

theorem loadFracs_chain (n : Nat) : List.Chain' (· ≤ ·) (loadFracs n) := by
  unfold loadFracs
  rw [List.chain'_map]
  cases n with
  | zero => simp
  | succ m =>
    refine (List.chain'_range_succ _ m).mpr ?_
    intro i _
    have hpos : (0 : ℚ) < ((m + 1 : ℕ) : ℚ) := by
      exact_mod_cast Nat.succ_pos m
    have h1 : ((i + 1 : ℕ) : ℚ) ≤ ((i + 1 + 1 : ℕ) : ℚ) := by
      exact_mod_cast Nat.le_succ (i + 1)
    exact mul_le_mul_of_nonneg_right
      ((div_le_div_iff_of_pos_right hpos).mpr h1) (by norm_num)

theorem loadFracs_nonneg (n : Nat) : ∀ y ∈ loadFracs n, 0 ≤ y := by
  intro y hy
  unfold loadFracs at hy
  simp only [List.mem_map, List.mem_range] at hy
  obtain ⟨k, _, rfl⟩ := hy
  have h1 : (0 : ℚ) ≤ ((k + 1 : ℕ) : ℚ) := by positivity
  have h2 : (0 : ℚ) ≤ ((n : ℕ) : ℚ) := by positivity
  have := div_nonneg h1 h2
  nlinarith

theorem loadFracs_last (n : Nat) (hn : 0 < n) :
    (loadFracs n).getLast? = some (1/2 : ℚ) := by
  obtain ⟨m, rfl⟩ : ∃ m, n = m + 1 := ⟨n - 1, by omega⟩
  unfold loadFracs
  rw [List.range_succ, List.map_append, List.getLast?_append]
  have hne : ((m : ℚ) + 1) ≠ 0 := by positivity
  simp [div_self hne]

theorem loadFracs_ne_nil (n : Nat) (hn : 0 < n) : loadFracs n ≠ [] := by
  unfold loadFracs
  simp only [ne_eq, List.map_eq_nil_iff, List.range_eq_nil]
  omega

theorem pipeline_fracs_chain (n : Nat) (h2 : 2 ≤ n) :
    List.Chain' (· ≤ ·)
      ((0 : ℚ) :: (0 : ℚ) ::
        (loadFracs n ++ [(1 : ℚ)/2, 3/5, 19/20, 19/20, 1])) := by
  have hn : 0 < n := by omega
  have hblock : List.Chain' (· ≤ ·) [(1 : ℚ)/2, 3/5, 19/20, 19/20, 1] := by
    norm_num [List.chain'_cons]
  have happ : List.Chain' (· ≤ ·)
      (loadFracs n ++ [(1 : ℚ)/2, 3/5, 19/20, 19/20, 1]) := by
    rw [List.chain'_append]
    refine ⟨loadFracs_chain n, hblock, ?_⟩
    intro x hx y hy
    rw [loadFracs_last n hn] at hx
    simp only [Option.mem_def, Option.some_inj] at hx
    simp only [List.head?_cons, Option.mem_def, Option.some_inj] at hy
    rw [← hx, ← hy]
  refine List.Chain'.cons' (List.Chain'.cons' happ ?_) ?_
  · intro y hy
    rw [List.head?_append_of_ne_nil _ (loadFracs_ne_nil n hn)] at hy
    exact loadFracs_nonneg n y (List.mem_of_mem_head? hy)
  · intro y hy
    simp only [List.head?_cons, Option.mem_def, Option.some_inj] at hy
    rw [← hy]

theorem pipeline_fracs_last (n : Nat) :
    ((0 : ℚ) :: (0 : ℚ) ::
      (loadFracs n ++ [(1 : ℚ)/2, 3/5, 19/20, 19/20, 1])).getLast? =
      some 1 := by
  rw [show ((0 : ℚ) :: (0 : ℚ) ::
      (loadFracs n ++ [(1 : ℚ)/2, 3/5, 19/20, 19/20, 1])) =
      (((0 : ℚ) :: (0 : ℚ) :: loadFracs n) ++
        [(1 : ℚ)/2, 3/5, 19/20, 19/20, 1]) by simp]
  rw [List.getLast?_append]
  rfl

/-- C2 (amended): on a successful run over a directory with at least two
images, the fraction sequence delivered to the callback is monotonically
non-decreasing and (in every successful run) the final fraction is exactly
1.0.  (Runs over a single-image directory dip from 1.0 to 0.95.) -/
theorem pipeline_progress_monotone (stat : String → Option Nat)
    (imread : String → Option Image) (engine : Engine) (codec : PngCodec)
    (fs : FsState) (imwrite : Option Bool) (ts : String)
    (entries : List DirEntry) (out_path : String) (parallel : Bool)
    (mode : String) (quality : Int) (order : List Nat) (f : String → Image)
    (h2 : 2 ≤ (discoverPaths entries).length)
    (hcount : (discoverPaths entries).length ≤ get_default_limits.max_files)
    (hperm : order.Perm (List.range (discoverPaths entries).length))
    (hload : ∀ p ∈ discoverPaths entries,
      load_single_image stat imread p true (some get_default_limits) =
        .ok (f p))
    (hsucc : (create_orthomosaic stat imread engine codec fs imwrite ts
        entries out_path parallel mode quality order).result.isOk = true) :
    List.Chain' (· ≤ ·) ((create_orthomosaic stat imread engine codec fs
        imwrite ts entries out_path parallel mode quality
        order).events.map Prod.fst) ∧
    ((create_orthomosaic stat imread engine codec fs imwrite ts entries
        out_path parallel mode quality order).events.map Prod.fst).getLast? =
      some 1 := by
  have hspec := load_images_spec stat imread entries none order f (by omega)
    (by simpa using hcount) hperm (by simpa using hload) parallel
  rcases hs : (stitch_images engine ((discoverPaths entries).map f)
      mode).result with e | st
  · simp [create_orthomosaic, hspec, hs, Except.isOk, Except.toBool] at hsucc
  · have hevs := stitch_ok_events engine ((discoverPaths entries).map f) mode
      st (by simpa using h2) hs
    rcases hsave : save_image codec fs imwrite ts st out_path true quality 3
      with e2 | act
    · simp [create_orthomosaic, hspec, hs, hsave, Except.isOk,
        Except.toBool] at hsucc
    · have hcreate : create_orthomosaic stat imread engine codec fs imwrite
          ts entries out_path parallel mode quality order =
          ⟨.ok ⟨out_path, ((discoverPaths entries).map f).length,
              (st.width, st.height)⟩,
           [((0 : ℚ), "Starting orthomosaic creation...")] ++
             (((0 : ℚ), "Loading " ++
                 toString (discoverPaths entries).length ++ " images...") ::
               (List.range (discoverPaths entries).length).map
                 (fun k => loadEventAt (discoverPaths entries).length
                   (k + 1))) ++
             (stitch_images engine ((discoverPaths entries).map f)
               mode).events ++
             [((19/20 : ℚ), "Saving output...")] ++
             [((1 : ℚ), "Complete!")]⟩ := by
        simp only [create_orthomosaic, hspec, hs, hsave]
      rw [hcreate]
      have hE : ([((0 : ℚ), "Starting orthomosaic creation...")] ++
            (((0 : ℚ), "Loading " ++
                toString (discoverPaths entries).length ++ " images...") ::
              (List.range (discoverPaths entries).length).map
                (fun k => loadEventAt (discoverPaths entries).length
                  (k + 1))) ++
            (stitch_images engine ((discoverPaths entries).map f)
              mode).events ++
            [((19/20 : ℚ), "Saving output...")] ++
            [((1 : ℚ), "Complete!")]).map Prod.fst =
          (0 : ℚ) :: (0 : ℚ) ::
            (loadFracs (discoverPaths entries).length ++
              [(1 : ℚ)/2, 3/5, 19/20, 19/20, 1]) := by
        simp [hevs, loadEventAt, loadFracs, List.map_map, Function.comp_def]
      exact ⟨by rw [hE]; exact pipeline_fracs_chain _ h2,
        by rw [hE]; exact pipeline_fracs_last _⟩

/-- C2 (amended) witness: the monotone theorem applied to a concrete
successful two-image run with reversed completion order. -/
theorem pipeline_progress_monotone_witness :
    List.Chain' (· ≤ ·) ((create_orthomosaic statW imreadW constEngine
        witnessCodec fsAllOk (some true) "ts" entries2 "out.jpg" true
        "panorama" 95 [1, 0]).events.map Prod.fst) ∧
    ((create_orthomosaic statW imreadW constEngine witnessCodec fsAllOk
        (some true) "ts" entries2 "out.jpg" true "panorama" 95
        [1, 0]).events.map Prod.fst).getLast? = some 1 :=
  pipeline_progress_monotone statW imreadW constEngine witnessCodec fsAllOk
    (some true) "ts" entries2 "out.jpg" true "panorama" 95 [1, 0] loadW
    (by decide) (by decide)
    (by
      rw [show List.range (discoverPaths entries2).length = [0, 1] from rfl]
      exact List.Perm.swap 0 1 [])
    (by
      have hd : discoverPaths entries2 = ["a.jpg", "b.jpg"] := by decide
      rw [hd]
      intro p hp
      fin_cases hp <;> rfl)
    (by rfl)

end Autoflight
